import Mathlib

/-!
Verification of `src/skills/bannerlord-modder/scripts/generate_mod.py`.

Strings are embedded as `List Char` (`Str`); Python `str.replace` is
embedded as `replaceAll` (leftmost, non-overlapping, scan continues after
the substituted text, matching CPython's semantics for the non-empty
patterns used by the script).  The filesystem is embedded as a pair of a
directory list and an association list of file contents, and the script's
`create_mod_structure` and `main` are translated statement by statement.
-/

namespace GenMod

/-- Strings of the script, embedded as lists of characters. -/
abbrev Str := List Char

/-- Fuel-indexed scan implementing Python `str.replace`: at each position,
if the pattern is a (non-empty) prefix of the remaining input, emit the
replacement and continue after the matched text, otherwise copy one
character.  The fuel bounds the number of scan steps; `replaceAll` supplies
fuel equal to the input length, which is always sufficient. -/
def replaceAllFuel (p v : Str) : Nat → Str → Str
  | 0, s => s
  | _ + 1, [] => []
  | n + 1, c :: rest =>
    if p ≠ [] ∧ p <+: (c :: rest) then
      v ++ replaceAllFuel p v n ((c :: rest).drop p.length)
    else
      c :: replaceAllFuel p v n rest

/-- Python `content.replace(p, v)` for the non-empty patterns the script
uses (for `p = ""` Python would interleave `v` everywhere; the script never
does that, and this embedding then returns the input unchanged). -/
def replaceAll (p v s : Str) : Str :=
  replaceAllFuel p v s.length s

theorem replaceAllFuel_congr (p v : Str) :
    ∀ n m s, s.length ≤ n → s.length ≤ m →
      replaceAllFuel p v n s = replaceAllFuel p v m s := by
  intro n
  induction n with
  | zero =>
    intro m s hn _
    have : s = [] := List.eq_nil_of_length_eq_zero (Nat.le_zero.mp hn)
    subst this
    cases m <;> rfl
  | succ n ih =>
    intro m s hn hm
    cases s with
    | nil => cases m <;> rfl
    | cons c rest =>
      cases m with
      | zero => exact absurd hm (by simp)
      | succ m =>
        simp only [List.length_cons] at hn hm
        simp only [replaceAllFuel]
        by_cases h : p ≠ [] ∧ p <+: (c :: rest)
        · simp only [if_pos h]
          have hp : 1 ≤ p.length := by
            have := h.1
            cases p with
            | nil => simp at this
            | cons _ _ => simp
          have hlen : ((c :: rest).drop p.length).length ≤ n := by
            simp only [List.length_drop, List.length_cons]
            omega
          have hlen' : ((c :: rest).drop p.length).length ≤ m := by
            simp only [List.length_drop, List.length_cons]
            omega
          rw [ih m _ hlen hlen']
        · simp only [if_neg h]
          rw [ih m rest (by omega) (by omega)]

theorem replaceAll_nil (p v : Str) : replaceAll p v [] = [] := rfl

theorem replaceAll_cons_pos (p v : Str) (c : Char) (rest : Str)
    (h : p ≠ [] ∧ p <+: (c :: rest)) :
    replaceAll p v (c :: rest) =
      v ++ replaceAll p v ((c :: rest).drop p.length) := by
  have hp : 1 ≤ p.length := by
    have := h.1
    cases p with
    | nil => simp at this
    | cons _ _ => simp
  simp only [replaceAll, List.length_cons, replaceAllFuel, if_pos h]
  congr 1
  exact replaceAllFuel_congr p v _ _ _
    (by simp only [List.length_drop, List.length_cons]; omega) (le_refl _)

theorem replaceAll_cons_neg (p v : Str) (c : Char) (rest : Str)
    (h : ¬ (p ≠ [] ∧ p <+: (c :: rest))) :
    replaceAll p v (c :: rest) = c :: replaceAll p v rest := by
  simp only [replaceAll, List.length_cons, replaceAllFuel, if_neg h]

/-- Configuration dictionary built by `main` from the parsed arguments.
The Python dict has keys `mod_id`, `mod_name`, `namespace`, `author`,
`version`, and optionally `description`; the optional key is embedded as
an `Option` field (`namespace` is a Lean keyword, hence `namespace_`). -/
structure Config where
  mod_id : Str
  mod_name : Str
  namespace_ : Str
  author : Str
  version : Str
  description : Option Str
deriving DecidableEq, Repr

/-- Value substituted for the `ModDescription` placeholder:
`config.get("description", "A Bannerlord mod")`. -/
def descriptionValue (config : Config) : Str :=
  (config.description).getD "A Bannerlord mod".data

/-- Replacement table of `replace_placeholders`, in the Python dict's
insertion order. -/
def replacements (config : Config) : List (Str × Str) :=
  [("${ModId}".data, config.mod_id),
   ("${ModName}".data, config.mod_name),
   ("${ModNamespace}".data, config.namespace_),
   ("${Author}".data, config.author),
   ("${Version}".data, config.version),
   ("${ModDescription}".data, descriptionValue config)]

/-- Sequential application of a list of `(placeholder, value)` pairs by
repeated `str.replace`, first to last. -/
def applyAll (rs : List (Str × Str)) (content : Str) : Str :=
  rs.foldl (fun acc pv => replaceAll pv.1 pv.2 acc) content

/-- Body of `replace_placeholders`: fold the replacement table over the
content in insertion order. -/
def replace_placeholders (config : Config) (content : Str) : Str :=
  applyAll (replacements config) content

/-- Module-level `TEMPLATES` dict: output file name ↦ template file name,
in insertion order. -/
def TEMPLATES : List (Str × Str) :=
  [("SubModule.cs".data, "SubModule.cs.template".data),
   ("ModSettings.cs".data, "ModSettings.cs.template".data),
   ("Behavior.cs".data, "CampaignBehavior.cs.template".data),
   ("SubModule.xml".data, "SubModule.xml.template".data),
   ("Project.csproj".data, "ModProject.csproj.template".data)]

/-- Placeholder tokens of the replacement table, in order. -/
def placeholders : List Str :=
  ["${ModId}".data, "${ModName}".data, "${ModNamespace}".data,
   "${Author}".data, "${Version}".data, "${ModDescription}".data]

theorem replacements_fst (config : Config) :
    (replacements config).map Prod.fst = placeholders := rfl

/-!
Template contents, viewed as alternations of literal text and placeholder
tokens.  A template is well formed when its literal stretches contain no
`$` character and its placeholder tokens come from the script's table;
this is the shape of the shipped `.template` files, whose only `$`
characters start placeholder tokens.
-/

/-- One stretch of a template: literal text, or a placeholder token. -/
inductive Chunk where
  | lit (s : Str)
  | hole (p : Str)
deriving DecidableEq, Repr

/-- Text of one chunk. -/
def flattenChunk : Chunk → Str
  | .lit s => s
  | .hole p => p

/-- Text of a whole template. -/
def flatten : List Chunk → Str
  | [] => []
  | c :: t => flattenChunk c ++ flatten t

/-- Well-formed chunk: a literal without `$`, or a placeholder from the
table. -/
def ChunkWF : Chunk → Prop
  | .lit s => '$' ∉ s
  | .hole p => p ∈ placeholders

instance : DecidablePred ChunkWF := by
  intro c
  cases c with
  | lit s => exact inferInstanceAs (Decidable ('$' ∉ s))
  | hole p => exact inferInstanceAs (Decidable (p ∈ placeholders))

/-- Placeholder token shape: starts with `$` and has no further `$`. -/
def patOk (p : Str) : Prop := p.head? = some '$' ∧ '$' ∉ p.tail

instance : DecidablePred patOk := fun p =>
  inferInstanceAs (Decidable (p.head? = some '$' ∧ '$' ∉ p.tail))

theorem placeholders_patOk : ∀ p ∈ placeholders, patOk p := by decide

theorem placeholders_indep :
    ∀ p ∈ placeholders, ∀ q ∈ placeholders,
      p = q ∨ (¬ p <+: q ∧ ¬ q <+: p) := by decide

theorem patOk_ne_nil {p : Str} (hp : patOk p) : p ≠ [] := by
  intro h
  subst h
  simp [patOk] at hp

theorem patOk_eq_cons {p : Str} (hp : patOk p) : p = '$' :: p.tail := by
  cases p with
  | nil => simp [patOk] at hp
  | cons c q =>
    have h1 : c = '$' := by
      have := hp.1
      simp only [List.head?, Option.some.injEq] at this
      exact this
    rw [h1]
    rfl

/-- Scanning past literal text that contains no `$` leaves it unchanged,
because every pattern of the table starts with `$`. -/
theorem replaceAll_append_lit (p v l b : Str) (hp : p.head? = some '$')
    (hl : '$' ∉ l) :
    replaceAll p v (l ++ b) = l ++ replaceAll p v b := by
  induction l with
  | nil => simp
  | cons c l ih =>
    have hc : c ≠ '$' := by
      intro h
      exact hl (h ▸ List.mem_cons_self c l)
    have hl' : '$' ∉ l := fun h => hl (List.mem_cons_of_mem c h)
    have hcond : ¬ (p ≠ [] ∧ p <+: (c :: (l ++ b))) := by
      rintro ⟨hne, hpre⟩
      cases p with
      | nil => exact hne rfl
      | cons q qs =>
        simp only [List.head?, Option.some.injEq] at hp
        have : q = c := (List.cons_prefix_cons.mp hpre).1
        exact hc (by rw [← this, hp])
    rw [List.cons_append, replaceAll_cons_neg _ _ _ _ hcond, ih hl',
      List.cons_append]

/-- Scanning past a foreign placeholder token leaves it unchanged, because
neither token is a prefix of the other and `$` occurs only at a token's
head. -/
theorem replaceAll_append_hole (p v q b : Str) (hp : patOk p) (hq : patOk q)
    (h1 : ¬ p <+: q) (h2 : ¬ q <+: p) :
    replaceAll p v (q ++ b) = q ++ replaceAll p v b := by
  have hcond : ¬ (p ≠ [] ∧ p <+: (q ++ b)) := by
    rintro ⟨_, hpre⟩
    rcases Nat.le_total p.length q.length with hle | hle
    · exact h1 (List.prefix_of_prefix_length_le hpre (List.prefix_append q b) hle)
    · exact h2 (List.prefix_of_prefix_length_le (List.prefix_append q b) hpre hle)
  obtain ⟨q', hq'⟩ : ∃ q', q = '$' :: q' := ⟨q.tail, patOk_eq_cons hq⟩
  have hq2 : '$' ∉ q' := by
    rw [hq'] at hq
    exact hq.2
  subst hq'
  rw [List.cons_append, replaceAll_cons_neg _ _ _ _ (by exact hcond),
    replaceAll_append_lit p v q' b hp.1 hq2, List.cons_append]

/-- Scanning the pattern's own token substitutes the value and continues
after it. -/
theorem replaceAll_append_self (p v b : Str) (hp : p ≠ []) :
    replaceAll p v (p ++ b) = v ++ replaceAll p v b := by
  obtain ⟨c, q, rfl⟩ : ∃ c q, p = c :: q := by
    cases p with
    | nil => exact absurd rfl hp
    | cons c q => exact ⟨c, q, rfl⟩
  rw [List.cons_append,
    replaceAll_cons_pos _ _ _ _
      ⟨by simp, by rw [← List.cons_append]; exact List.prefix_append _ _⟩]
  congr 1
  rw [← List.cons_append, List.drop_left]

/-- Effect of one `str.replace` pass on a template, chunk by chunk. -/
def substChunk (p v : Str) : Chunk → Chunk
  | .hole q => if q = p then .lit v else .hole q
  | .lit s => .lit s

/-- One `str.replace` pass on a whole template. -/
def substOne (p v : Str) (t : List Chunk) : List Chunk :=
  t.map (substChunk p v)

/-- On a well-formed template, one `str.replace` pass substitutes exactly
the matching placeholder tokens and nothing else. -/
theorem replaceAll_flatten (p v : Str) (hp : p ∈ placeholders)
    (t : List Chunk) (ht : ∀ c ∈ t, ChunkWF c) :
    replaceAll p v (flatten t) = flatten (substOne p v t) := by
  have hpOk : patOk p := placeholders_patOk p hp
  induction t with
  | nil => rfl
  | cons c t ih =>
    have hc : ChunkWF c := ht c (List.mem_cons_self c t)
    have ht' : ∀ c ∈ t, ChunkWF c := fun c h => ht c (List.mem_cons_of_mem _ h)
    cases c with
    | lit s =>
      have hs : '$' ∉ s := hc
      show replaceAll p v (s ++ flatten t) = s ++ flatten (substOne p v t)
      rw [replaceAll_append_lit p v s _ hpOk.1 hs, ih ht']
    | hole q =>
      have hqmem : q ∈ placeholders := hc
      by_cases hqp : q = p
      · subst hqp
        show replaceAll q v (q ++ flatten t) = flatten (substChunk q v (.hole q) :: substOne q v t)
        rw [replaceAll_append_self q v _ (patOk_ne_nil hpOk)]
        simp only [substChunk, if_pos rfl]
        show v ++ replaceAll q v (flatten t) = v ++ flatten (substOne q v t)
        rw [ih ht']
      · rcases placeholders_indep p hp q hqmem with heq | ⟨h1, h2⟩
        · exact absurd heq.symm hqp
        · show replaceAll p v (q ++ flatten t) = flatten (substChunk p v (.hole q) :: substOne p v t)
          rw [replaceAll_append_hole p v q _ hpOk (placeholders_patOk q hqmem) h1 h2]
          simp only [substChunk, if_neg hqp]
          show q ++ replaceAll p v (flatten t) = q ++ flatten (substOne p v t)
          rw [ih ht']

/-- Sequential `str.replace` passes on a template. -/
def substAll (rs : List (Str × Str)) (t : List Chunk) : List Chunk :=
  rs.foldl (fun t pv => substOne pv.1 pv.2 t) t

theorem substChunk_wf (p v : Str) (hv : '$' ∉ v) (c : Chunk)
    (hc : ChunkWF c) : ChunkWF (substChunk p v c) := by
  cases c with
  | lit s => exact hc
  | hole q =>
    by_cases h : q = p
    · simp only [substChunk, if_pos h]
      exact hv
    · simp only [substChunk, if_neg h]
      exact hc

/-- Applying a list of replacement pairs over the flattened text equals
flattening after chunkwise substitution, for pairs whose patterns come
from the table and whose values contain no `$`. -/
theorem applyAll_flatten (rs : List (Str × Str))
    (hps : ∀ pv ∈ rs, pv.1 ∈ placeholders ∧ '$' ∉ pv.2)
    (t : List Chunk) (ht : ∀ c ∈ t, ChunkWF c) :
    applyAll rs (flatten t) = flatten (substAll rs t) := by
  induction rs generalizing t with
  | nil => rfl
  | cons pv rs ih =>
    have hhead := hps pv (List.mem_cons_self pv rs)
    have htail : ∀ pv ∈ rs, pv.1 ∈ placeholders ∧ '$' ∉ pv.2 :=
      fun pv h => hps pv (List.mem_cons_of_mem _ h)
    show applyAll rs (replaceAll pv.1 pv.2 (flatten t)) =
      flatten (substAll rs (substOne pv.1 pv.2 t))
    rw [replaceAll_flatten pv.1 pv.2 hhead.1 t ht]
    exact ih htail _ (fun c hc => by
      rcases List.mem_map.mp hc with ⟨c0, hc0, rfl⟩
      exact substChunk_wf pv.1 pv.2 hhead.2 c0 (ht c0 hc0))

theorem substChunk_comm (p1 v1 p2 v2 : Str)
    (h : p1 = p2 → v1 = v2) (c : Chunk) :
    substChunk p1 v1 (substChunk p2 v2 c) =
      substChunk p2 v2 (substChunk p1 v1 c) := by
  cases c with
  | lit s => rfl
  | hole q =>
    by_cases h2 : q = p2
    · subst h2
      by_cases h1 : q = p1
      · subst h1
        have hv := h rfl
        subst hv
        simp [substChunk]
      · simp [substChunk, h1]
    · by_cases h1 : q = p1
      · subst h1
        simp [substChunk, h2]
      · simp [substChunk, h1, h2]

theorem substOne_comm (p1 v1 p2 v2 : Str) (h : p1 = p2 → v1 = v2)
    (t : List Chunk) :
    substOne p1 v1 (substOne p2 v2 t) = substOne p2 v2 (substOne p1 v1 t) := by
  simp only [substOne, List.map_map]
  exact List.map_congr_left fun c _ => substChunk_comm p1 v1 p2 v2 h c

/-- Distinct entries of the replacement table have distinct placeholder
tokens, so a pair is determined by its token. -/
theorem replacements_keyInj (config : Config) :
    ∀ x ∈ replacements config, ∀ y ∈ replacements config,
      x.1 = y.1 → x = y := by
  have hnd : ((replacements config).map Prod.fst).Nodup := by
    rw [replacements_fst]
    decide
  exact fun x hx y hy hxy => List.inj_on_of_nodup_map hnd hx hy hxy

/-- Chunkwise substitution is invariant under permuting the replacement
table. -/
theorem substAll_perm (config : Config) (rs : List (Str × Str))
    (hperm : rs.Perm (replacements config)) (t : List Chunk) :
    substAll rs t = substAll (replacements config) t := by
  refine hperm.foldl_eq' ?_ t
  intro x hx y hy z
  by_cases hk : x.1 = y.1
  · have hxy : x = y :=
      replacements_keyInj config x (hperm.subset hx) y (hperm.subset hy) hk
    subst hxy
    rfl
  · exact substOne_comm y.1 y.2 x.1 x.2 (fun he => absurd he.symm hk) z

/-- Per-chunk effect of sequentially applying a replacement list. -/
def stepChunk (rs : List (Str × Str)) (c : Chunk) : Chunk :=
  rs.foldl (fun c pv => substChunk pv.1 pv.2 c) c

theorem substAll_eq_map (rs : List (Str × Str)) (t : List Chunk) :
    substAll rs t = t.map (stepChunk rs) := by
  induction rs generalizing t with
  | nil => exact (List.map_id t).symm
  | cons pv rs ih =>
    show substAll rs (substOne pv.1 pv.2 t) = t.map (stepChunk (pv :: rs))
    rw [ih]
    simp only [substOne, List.map_map]
    rfl

theorem stepChunk_lit (rs : List (Str × Str)) (s : Str) :
    stepChunk rs (.lit s) = .lit s := by
  induction rs with
  | nil => rfl
  | cons pv rs ih => exact ih

theorem stepChunk_cons_hole_eq (p v : Str) (rs : List (Str × Str)) :
    stepChunk ((p, v) :: rs) (.hole p) = .lit v := by
  show stepChunk rs (substChunk p v (.hole p)) = .lit v
  simp only [substChunk, if_pos rfl]
  exact stepChunk_lit rs v

theorem stepChunk_cons_hole_ne (p v q : Str) (rs : List (Str × Str))
    (h : q ≠ p) :
    stepChunk ((p, v) :: rs) (.hole q) = stepChunk rs (.hole q) := by
  show stepChunk rs (substChunk p v (.hole q)) = stepChunk rs (.hole q)
  simp only [substChunk, if_neg h]

/-- Value that the claim's table assigns to each placeholder token. -/
def placeholderValue (config : Config) (p : Str) : Str :=
  if p = "${ModId}".data then config.mod_id
  else if p = "${ModName}".data then config.mod_name
  else if p = "${ModNamespace}".data then config.namespace_
  else if p = "${Author}".data then config.author
  else if p = "${Version}".data then config.version
  else descriptionValue config

/-- Simultaneous substitution of every placeholder token by its value,
the behaviour the specification ascribes to `replace_placeholders`. -/
def specSubstChunk (config : Config) : Chunk → Chunk
  | .hole q => .lit (placeholderValue config q)
  | .lit s => .lit s

/-- Simultaneous substitution over a whole template. -/
def specSubst (config : Config) (t : List Chunk) : List Chunk :=
  t.map (specSubstChunk config)

theorem stepChunk_replacements (config : Config) (c : Chunk)
    (hc : ChunkWF c) : stepChunk (replacements config) c = specSubstChunk config c := by
  cases c with
  | lit s => exact stepChunk_lit _ s
  | hole q =>
    have hq : q ∈ placeholders := hc
    simp only [placeholders, List.mem_cons, List.not_mem_nil, or_false] at hq
    rcases hq with rfl | rfl | rfl | rfl | rfl | rfl
    · rw [show replacements config =
          ("${ModId}".data, config.mod_id) :: (replacements config).tail from rfl,
        stepChunk_cons_hole_eq]
      simp [specSubstChunk, placeholderValue]
    · show stepChunk (replacements config) (.hole "${ModName}".data) = _
      rw [replacements, stepChunk_cons_hole_ne _ _ _ _ (by decide),
        stepChunk_cons_hole_eq]
      simp only [specSubstChunk, placeholderValue,
        if_neg (by decide : ¬ ("${ModName}".data = "${ModId}".data)), if_pos rfl,
        if_true, eq_self_iff_true]
    · show stepChunk (replacements config) (.hole "${ModNamespace}".data) = _
      rw [replacements, stepChunk_cons_hole_ne _ _ _ _ (by decide),
        stepChunk_cons_hole_ne _ _ _ _ (by decide), stepChunk_cons_hole_eq]
      simp only [specSubstChunk, placeholderValue,
        if_neg (by decide : ¬ ("${ModNamespace}".data = "${ModId}".data)),
        if_neg (by decide : ¬ ("${ModNamespace}".data = "${ModName}".data)), if_pos rfl,
        if_true, eq_self_iff_true]
    · show stepChunk (replacements config) (.hole "${Author}".data) = _
      rw [replacements, stepChunk_cons_hole_ne _ _ _ _ (by decide),
        stepChunk_cons_hole_ne _ _ _ _ (by decide),
        stepChunk_cons_hole_ne _ _ _ _ (by decide), stepChunk_cons_hole_eq]
      simp only [specSubstChunk, placeholderValue,
        if_neg (by decide : ¬ ("${Author}".data = "${ModId}".data)),
        if_neg (by decide : ¬ ("${Author}".data = "${ModName}".data)),
        if_neg (by decide : ¬ ("${Author}".data = "${ModNamespace}".data)), if_pos rfl,
        if_true, eq_self_iff_true]
    · show stepChunk (replacements config) (.hole "${Version}".data) = _
      rw [replacements, stepChunk_cons_hole_ne _ _ _ _ (by decide),
        stepChunk_cons_hole_ne _ _ _ _ (by decide),
        stepChunk_cons_hole_ne _ _ _ _ (by decide),
        stepChunk_cons_hole_ne _ _ _ _ (by decide), stepChunk_cons_hole_eq]
      simp only [specSubstChunk, placeholderValue,
        if_neg (by decide : ¬ ("${Version}".data = "${ModId}".data)),
        if_neg (by decide : ¬ ("${Version}".data = "${ModName}".data)),
        if_neg (by decide : ¬ ("${Version}".data = "${ModNamespace}".data)),
        if_neg (by decide : ¬ ("${Version}".data = "${Author}".data)), if_pos rfl,
        if_true, eq_self_iff_true]
    · show stepChunk (replacements config) (.hole "${ModDescription}".data) = _
      rw [replacements, stepChunk_cons_hole_ne _ _ _ _ (by decide),
        stepChunk_cons_hole_ne _ _ _ _ (by decide),
        stepChunk_cons_hole_ne _ _ _ _ (by decide),
        stepChunk_cons_hole_ne _ _ _ _ (by decide),
        stepChunk_cons_hole_ne _ _ _ _ (by decide), stepChunk_cons_hole_eq]
      simp only [specSubstChunk, placeholderValue,
        if_neg (by decide : ¬ ("${ModDescription}".data = "${ModId}".data)),
        if_neg (by decide : ¬ ("${ModDescription}".data = "${ModName}".data)),
        if_neg (by decide : ¬ ("${ModDescription}".data = "${ModNamespace}".data)),
        if_neg (by decide : ¬ ("${ModDescription}".data = "${Author}".data)),
        if_neg (by decide : ¬ ("${ModDescription}".data = "${Version}".data))]

theorem replacements_mem_fst (config : Config) {pv : Str × Str}
    (h : pv ∈ replacements config) : pv.1 ∈ placeholders := by
  have := List.mem_map_of_mem Prod.fst h
  rwa [replacements_fst] at this

/-- On a well-formed template whose replacement values contain no `$`,
the sequential pass equals the simultaneous substitution. -/
theorem replace_placeholders_flatten (config : Config) (t : List Chunk)
    (hvals : ∀ pv ∈ replacements config, '$' ∉ pv.2)
    (ht : ∀ c ∈ t, ChunkWF c) :
    replace_placeholders config (flatten t) = flatten (specSubst config t) := by
  show applyAll (replacements config) (flatten t) = _
  rw [applyAll_flatten (replacements config)
      (fun pv h => ⟨replacements_mem_fst config h, hvals pv h⟩) t ht,
    substAll_eq_map]
  congr 1
  exact List.map_congr_left fun c hc => stepChunk_replacements config c (ht c hc)

/-- On a well-formed template whose replacement values contain no `$`,
the sequential pass gives the same text for every permutation of the
replacement table. -/
theorem applyAll_perm_eq (config : Config) (rs : List (Str × Str))
    (t : List Chunk) (hperm : rs.Perm (replacements config))
    (hvals : ∀ pv ∈ replacements config, '$' ∉ pv.2)
    (ht : ∀ c ∈ t, ChunkWF c) :
    applyAll rs (flatten t) = replace_placeholders config (flatten t) := by
  have hps : ∀ pv ∈ rs, pv.1 ∈ placeholders ∧ '$' ∉ pv.2 := fun pv h =>
    ⟨replacements_mem_fst config (hperm.subset h), hvals pv (hperm.subset h)⟩
  rw [applyAll_flatten rs hps t ht]
  show _ = applyAll (replacements config) (flatten t)
  rw [applyAll_flatten (replacements config)
      (fun pv h => ⟨replacements_mem_fst config h, hvals pv h⟩) t ht,
    substAll_perm config rs hperm t]

/-!
Filesystem model.  A path is a list of name components; a filesystem
state is the list of directories that exist plus an association list of
file contents.  `mkdir(parents=True, exist_ok=True)` inserts the path and
every ancestor, `write_text` replaces or appends a binding, `read_text`
looks the binding up, and `Path.exists()` is true for a directory or a
file.  Python errors that the script never triggers (reading a path that
is a directory, `mkdir` over an existing file) are not modelled.
-/

/-- Filesystem path, as its list of name components. -/
abbrev Path := List Str

/-- Filesystem state. -/
structure FS where
  dirs : List Path
  files : List (Path × Str)
deriving DecidableEq, Repr

/-- First binding for a path in an association list of file contents. -/
def lookupFile : List (Path × Str) → Path → Option Str
  | [], _ => none
  | (q, c) :: t, p => if q = p then some c else lookupFile t p

/-- Replace the first binding for a path, or append one. -/
def setFile : List (Path × Str) → Path → Str → List (Path × Str)
  | [], p, c => [(p, c)]
  | (q, d) :: t, p, c => if q = p then (p, c) :: t else (q, d) :: setFile t p c

/-- Python `path.write_text(content)`. -/
def FS.writeText (fs : FS) (p : Path) (c : Str) : FS :=
  { fs with files := setFile fs.files p c }

/-- Python `path.read_text()` (the script only calls it on paths whose
existence it has checked; a directory at the path is not modelled). -/
def FS.readText (fs : FS) (p : Path) : Str :=
  (lookupFile fs.files p).getD []

/-- Python `path.exists()`: true when a directory or a file is at the
path. -/
def FS.pathExists (fs : FS) (p : Path) : Bool :=
  decide (p ∈ fs.dirs) || (lookupFile fs.files p).isSome

/-- Record one directory (`exist_ok=True`). -/
def insertDir (fs : FS) (p : Path) : FS :=
  if p ∈ fs.dirs then fs else { fs with dirs := p :: fs.dirs }

/-- Nonempty prefixes of a path, shortest first. -/
def prefixesOf (p : Path) : List Path :=
  (List.range p.length).map (fun i => p.take (i + 1))

/-- Python `path.mkdir(parents=True, exist_ok=True)`. -/
def mkdirParents (fs : FS) (p : Path) : FS :=
  (prefixesOf p).foldl insertDir fs

/-- Python `path.mkdir(exist_ok=True)` (the script only calls it with an
existing parent). -/
def mkdir (fs : FS) (p : Path) : FS := insertDir fs p

/-- Output path for one `TEMPLATES` entry, mirroring the `if`/`elif`
chain of `create_mod_structure`. -/
def outPathFor (mod_dir src_dir : Path) (config : Config)
    (output_name : Str) : Path :=
  if output_name = "SubModule.xml".data then
    mod_dir ++ ["SubModule.xml".data]
  else if output_name = "Project.csproj".data then
    src_dir ++ [config.mod_id ++ ".csproj".data]
  else if output_name = "Behavior.cs".data then
    src_dir ++ [config.mod_id ++ "Behavior.cs".data]
  else if output_name = "ModSettings.cs".data then
    src_dir ++ [config.mod_id ++ "Settings.cs".data]
  else
    src_dir ++ [output_name]

/-- Body of the template loop for one `TEMPLATES` entry: warn (collecting
the template path) and skip when the template is missing, otherwise read,
substitute and write.  The state is the filesystem plus the list of
template paths warned about so far. -/
def processTemplate (templates_dir mod_dir src_dir : Path) (config : Config)
    (st : FS × List Path) (entry : Str × Str) : FS × List Path :=
  let template_path := templates_dir ++ [entry.2]
  if st.1.pathExists template_path then
    let content := replace_placeholders config (st.1.readText template_path)
    (st.1.writeText (outPathFor mod_dir src_dir config entry.1) content, st.2)
  else
    (st.1, st.2 ++ [template_path])

/-- Text of the generated `README.md`, a function of the configuration
only (transcribed from the f-string in `create_mod_structure`). -/
def readmeContent (config : Config) : Str :=
  "# ".data ++ config.mod_name ++
  "\n\nA Mount & Blade II: Bannerlord mod.\n\n## Requirements\n\n- Bannerlord.Harmony\n- Bannerlord.ButterLib  \n- Bannerlord.UIExtenderEx\n- Bannerlord.MCM (Mod Configuration Menu)\n\n## Installation\n\n1. Install required dependencies from NexusMods or Steam Workshop\n2. Copy the `".data ++
  config.mod_id ++
  "` folder to your Bannerlord `Modules` directory\n3. Enable the mod in the launcher\n\n## Building\n\n1. Open `src/".data ++
  config.mod_id ++
  ".csproj` in Visual Studio or Rider\n2. Restore NuGet packages\n3. Build the solution\n\n## License\n\nMIT License\n".data

/-- The whole of `create_mod_structure`: directory creation, the template
loop, and the `README.md` write.  Returns the final filesystem and the
template paths warned about. -/
def create_mod_structure (output_dir : Path) (config : Config)
    (templates_dir : Path) (fs : FS) : FS × List Path :=
  let mod_dir := output_dir ++ [config.mod_id]
  let fs1 := mkdirParents fs mod_dir
  let fs2 := mkdirParents fs1 (mod_dir ++ ["bin".data, "Win64_Shipping_Client".data])
  let fs3 := mkdir fs2 (mod_dir ++ ["ModuleData".data])
  let src_dir := mod_dir ++ ["src".data]
  let fs4 := mkdir fs3 src_dir
  let st := TEMPLATES.foldl (processTemplate templates_dir mod_dir src_dir config) (fs4, [])
  (st.1.writeText (mod_dir ++ ["README.md".data]) (readmeContent config), st.2)

/-- Parsed command-line arguments, with the argparse defaults already in
the optional-free fields (`author` defaults to `"Anonymous"`, `version`
to `"1.0.0"`, `output` to `"."`); `name`, `namespace` and `templates`
have no default and are `None` when not supplied. -/
structure Args where
  mod_id : Str
  name : Option Str
  namespace_ : Option Str
  author : Str
  version : Str
  output : Path
  templates : Option Path
deriving DecidableEq, Repr

/-- Python `x or y` for an optional string: `None` and the empty string
are falsy. -/
def orDefault (o : Option Str) (d : Str) : Str :=
  match o with
  | none => d
  | some s => if s = [] then d else s

/-- Config dict built by `main` from the parsed arguments. -/
def buildConfig (args : Args) : Config :=
  { mod_id := args.mod_id
    mod_name := orDefault args.name args.mod_id
    namespace_ := orDefault args.namespace_ args.mod_id
    author := args.author
    version := args.version
    description := none }

/-- Arguments of an invocation that supplies only the mod id, every other
option left at its argparse default. -/
def argsOnlyModId (mod_id : Str) : Args :=
  { mod_id := mod_id, name := none, namespace_ := none,
    author := "Anonymous".data, version := "1.0.0".data,
    output := [".".data], templates := none }

/-- Outcome of `main`: final filesystem, warned template paths, exit
code (0 on success, 1 via `sys.exit(1)`). -/
structure RunResult where
  fs : FS
  warnings : List Path
  exitCode : Nat
deriving DecidableEq, Repr

/-- Templates directory used by `main`: the `--templates` argument when
given, otherwise `assets/templates` next to the script (`script_dir`
stands for `Path(__file__).parent.parent`). -/
def templatesDirOf (script_dir : Path) (args : Args) : Path :=
  match args.templates with
  | some t => t
  | none => script_dir ++ ["assets".data, "templates".data]

/-- The whole of `main` after argument parsing.  When the templates
directory does not exist, `main` prints an error and exits with status 1
before touching the filesystem. -/
def main (script_dir : Path) (args : Args) (fs : FS) : RunResult :=
  let config := buildConfig args
  let templates_dir := templatesDirOf script_dir args
  if fs.pathExists templates_dir then
    let st := create_mod_structure args.output config templates_dir fs
    { fs := st.1, warnings := st.2, exitCode := 0 }
  else
    { fs := fs, warnings := [], exitCode := 1 }

/-! Elementary filesystem lemmas. -/

theorem lookupFile_setFile_self (l : List (Path × Str)) (p : Path) (c : Str) :
    lookupFile (setFile l p c) p = some c := by
  induction l with
  | nil => simp [setFile, lookupFile]
  | cons qd t ih =>
    obtain ⟨q, d⟩ := qd
    by_cases h : q = p
    · simp [setFile, lookupFile, h]
    · simp [setFile, lookupFile, h, ih]

theorem lookupFile_setFile_ne (l : List (Path × Str)) (p q : Path) (c : Str)
    (h : p ≠ q) : lookupFile (setFile l q c) p = lookupFile l p := by
  induction l with
  | nil => simp [setFile, lookupFile, Ne.symm h]
  | cons qd t ih =>
    obtain ⟨q', d⟩ := qd
    by_cases h' : q' = q
    · subst h'
      simp [setFile, lookupFile, Ne.symm h]
    · by_cases h'' : q' = p
      · simp [setFile, lookupFile, h', h'', h]
      · simp [setFile, lookupFile, h', h'', ih]

theorem setFile_same (l : List (Path × Str)) (p : Path) (c : Str)
    (h : lookupFile l p = some c) : setFile l p c = l := by
  induction l with
  | nil => simp [lookupFile] at h
  | cons qd t ih =>
    obtain ⟨q, d⟩ := qd
    by_cases hq : q = p
    · subst hq
      simp only [lookupFile, if_pos rfl, if_true, eq_self_iff_true,
        Option.some.injEq] at h
      subst h
      simp [setFile]
    · simp only [lookupFile, if_neg hq] at h
      simp [setFile, hq, ih h]

theorem writeText_dirs (fs : FS) (p : Path) (c : Str) :
    (fs.writeText p c).dirs = fs.dirs := rfl

theorem lookupFile_writeText_self (fs : FS) (p : Path) (c : Str) :
    lookupFile (fs.writeText p c).files p = some c :=
  lookupFile_setFile_self _ _ _

theorem lookupFile_writeText_ne (fs : FS) (p q : Path) (c : Str)
    (h : p ≠ q) :
    lookupFile (fs.writeText q c).files p = lookupFile fs.files p :=
  lookupFile_setFile_ne _ _ _ _ h

theorem pathExists_writeText_ne (fs : FS) (p q : Path) (c : Str)
    (h : p ≠ q) : (fs.writeText q c).pathExists p = fs.pathExists p := by
  show (decide (p ∈ fs.dirs) || (lookupFile (setFile fs.files q c) p).isSome) = _
  rw [lookupFile_setFile_ne _ _ _ _ h]
  rfl

theorem readText_writeText_ne (fs : FS) (p q : Path) (c : Str)
    (h : p ≠ q) : (fs.writeText q c).readText p = fs.readText p := by
  show (lookupFile (setFile fs.files q c) p).getD [] = _
  rw [lookupFile_setFile_ne _ _ _ _ h]
  rfl

theorem insertDir_files (fs : FS) (p : Path) :
    (insertDir fs p).files = fs.files := by
  unfold insertDir
  split <;> rfl

theorem mem_insertDir (fs : FS) (p d : Path) :
    d ∈ (insertDir fs p).dirs ↔ d = p ∨ d ∈ fs.dirs := by
  unfold insertDir
  by_cases h : p ∈ fs.dirs
  · rw [if_pos h]
    constructor
    · exact Or.inr
    · rintro (rfl | hd)
      · exact h
      · exact hd
  · rw [if_neg h]
    exact List.mem_cons

theorem foldl_insertDir_files (l : List Path) (fs : FS) :
    (l.foldl insertDir fs).files = fs.files := by
  induction l generalizing fs with
  | nil => rfl
  | cons p l ih => rw [List.foldl_cons, ih, insertDir_files]

theorem mem_foldl_insertDir (l : List Path) (fs : FS) (d : Path) :
    d ∈ (l.foldl insertDir fs).dirs ↔ d ∈ l ∨ d ∈ fs.dirs := by
  induction l generalizing fs with
  | nil => simp
  | cons p l ih =>
    rw [List.foldl_cons, ih, mem_insertDir, List.mem_cons]
    tauto

theorem mkdirParents_files (fs : FS) (p : Path) :
    (mkdirParents fs p).files = fs.files := foldl_insertDir_files _ _

theorem mem_mkdirParents (fs : FS) (p d : Path) :
    d ∈ (mkdirParents fs p).dirs ↔ d ∈ prefixesOf p ∨ d ∈ fs.dirs :=
  mem_foldl_insertDir _ _ _

theorem self_mem_prefixesOf (p : Path) (hp : p ≠ []) : p ∈ prefixesOf p := by
  have hlen : 0 < p.length := List.length_pos.mpr hp
  refine List.mem_map.mpr ⟨p.length - 1, List.mem_range.mpr (by omega), ?_⟩
  rw [show p.length - 1 + 1 = p.length from by omega, List.take_length]

theorem processTemplate_pos (tdir mdir sdir : Path) (config : Config)
    (st : FS × List Path) (e : Str × Str)
    (h : st.1.pathExists (tdir ++ [e.2]) = true) :
    processTemplate tdir mdir sdir config st e =
      (st.1.writeText (outPathFor mdir sdir config e.1)
        (replace_placeholders config (st.1.readText (tdir ++ [e.2]))), st.2) := by
  unfold processTemplate
  simp [h]

theorem processTemplate_neg (tdir mdir sdir : Path) (config : Config)
    (st : FS × List Path) (e : Str × Str)
    (h : st.1.pathExists (tdir ++ [e.2]) = false) :
    processTemplate tdir mdir sdir config st e =
      (st.1, st.2 ++ [tdir ++ [e.2]]) := by
  unfold processTemplate
  simp [h]

/-- Characterization of the template loop over any entry list whose
template paths are disjoint from its output paths and whose output paths
are pairwise distinct: directories are untouched, paths outside the
output set are untouched, each present template's output holds its
substituted content, each missing template leaves its output unchanged
and its template path warned about, in order. -/
theorem foldTemplates_char (tdir mdir sdir : Path) (config : Config) :
    ∀ (entries : List (Str × Str)) (fs0 : FS) (w0 : List Path),
    (∀ e ∈ entries, ∀ e' ∈ entries,
        tdir ++ [e.2] ≠ outPathFor mdir sdir config e'.1) →
    (∀ e ∈ entries, ∀ e' ∈ entries, e ≠ e' →
        outPathFor mdir sdir config e.1 ≠ outPathFor mdir sdir config e'.1) →
    entries.Nodup →
    (entries.foldl (processTemplate tdir mdir sdir config) (fs0, w0)).1.dirs
        = fs0.dirs ∧
    (∀ p : Path, (∀ e ∈ entries, p ≠ outPathFor mdir sdir config e.1) →
        lookupFile (entries.foldl (processTemplate tdir mdir sdir config)
            (fs0, w0)).1.files p = lookupFile fs0.files p) ∧
    (∀ e ∈ entries, fs0.pathExists (tdir ++ [e.2]) = true →
        lookupFile (entries.foldl (processTemplate tdir mdir sdir config)
            (fs0, w0)).1.files (outPathFor mdir sdir config e.1) =
          some (replace_placeholders config (fs0.readText (tdir ++ [e.2])))) ∧
    (∀ e ∈ entries, fs0.pathExists (tdir ++ [e.2]) = false →
        lookupFile (entries.foldl (processTemplate tdir mdir sdir config)
            (fs0, w0)).1.files (outPathFor mdir sdir config e.1) =
          lookupFile fs0.files (outPathFor mdir sdir config e.1)) ∧
    (entries.foldl (processTemplate tdir mdir sdir config) (fs0, w0)).2
        = w0 ++ (entries.filter
            (fun e => ! fs0.pathExists (tdir ++ [e.2]))).map
              (fun e => tdir ++ [e.2]) := by
  intro entries
  induction entries with
  | nil =>
    intro fs0 w0 _ _ _
    refine ⟨rfl, fun p _ => rfl, fun e he => absurd he (List.not_mem_nil e),
      fun e he => absurd he (List.not_mem_nil e), by simp⟩
  | cons e rest ih =>
    intro fs0 w0 hto hoo hnd
    have hto' : ∀ a ∈ rest, ∀ e' ∈ rest,
        tdir ++ [a.2] ≠ outPathFor mdir sdir config e'.1 :=
      fun a ha e' he' =>
        hto a (List.mem_cons_of_mem e ha) e' (List.mem_cons_of_mem e he')
    have hoo' : ∀ a ∈ rest, ∀ e' ∈ rest, a ≠ e' →
        outPathFor mdir sdir config a.1 ≠ outPathFor mdir sdir config e'.1 :=
      fun a ha e' he' h =>
        hoo a (List.mem_cons_of_mem e ha) e' (List.mem_cons_of_mem e he') h
    have hnd' : rest.Nodup := hnd.of_cons
    have henr : e ∉ rest := hnd.not_mem
    cases hpe : fs0.pathExists (tdir ++ [e.2]) with
    | true =>
      have hstep : (e :: rest).foldl (processTemplate tdir mdir sdir config)
          (fs0, w0) = rest.foldl (processTemplate tdir mdir sdir config)
            (fs0.writeText (outPathFor mdir sdir config e.1)
              (replace_placeholders config (fs0.readText (tdir ++ [e.2]))), w0) := by
        rw [List.foldl_cons, processTemplate_pos tdir mdir sdir config _ _ hpe]
      set fs1 := fs0.writeText (outPathFor mdir sdir config e.1)
        (replace_placeholders config (fs0.readText (tdir ++ [e.2]))) with hfs1
      obtain ⟨ihd, ihu, ihp, ihm, ihw⟩ := ih fs1 w0 hto' hoo' hnd'
      have hstable : ∀ a ∈ rest,
          fs1.pathExists (tdir ++ [a.2]) = fs0.pathExists (tdir ++ [a.2]) :=
        fun a ha => pathExists_writeText_ne fs0 _ _ _
          (hto a (List.mem_cons_of_mem e ha) e (List.mem_cons_self e rest))
      have hread : ∀ a ∈ rest,
          fs1.readText (tdir ++ [a.2]) = fs0.readText (tdir ++ [a.2]) :=
        fun a ha => readText_writeText_ne fs0 _ _ _
          (hto a (List.mem_cons_of_mem e ha) e (List.mem_cons_self e rest))
      refine ⟨?_, ?_, ?_, ?_, ?_⟩
      · rw [hstep, ihd, hfs1, writeText_dirs]
      · intro p hp
        rw [hstep, ihu p (fun a ha => hp a (List.mem_cons_of_mem e ha)), hfs1,
          lookupFile_writeText_ne fs0 p _ _ (hp e (List.mem_cons_self e rest))]
      · intro a ha hpa
        rcases List.mem_cons.mp ha with rfl | ha'
        · rw [hstep,
            ihu _ (fun b hb => Ne.symm (hoo b (List.mem_cons_of_mem a hb) a
              (List.mem_cons_self a rest)
              (fun hba => henr (hba ▸ hb)))), hfs1,
            lookupFile_writeText_self]
        · rw [hstep, ihp a ha' ((hstable a ha').trans hpa), hread a ha']
      · intro a ha hpa
        rcases List.mem_cons.mp ha with rfl | ha'
        · rw [hpe] at hpa
          exact absurd hpa (by simp)
        · rw [hstep, ihm a ha' ((hstable a ha').trans hpa), hfs1,
            lookupFile_writeText_ne _ _ _ _
              (hoo a (List.mem_cons_of_mem e ha') e (List.mem_cons_self e rest)
                (fun hae => henr (hae ▸ ha')))]
      · rw [hstep, ihw]
        have hfiltereq : rest.filter (fun a => ! fs1.pathExists (tdir ++ [a.2]))
            = rest.filter (fun a => ! fs0.pathExists (tdir ++ [a.2])) :=
          List.filter_congr fun a ha => by rw [hstable a ha]
        rw [hfiltereq, List.filter_cons]
        simp [hpe]
    | false =>
      have hstep : (e :: rest).foldl (processTemplate tdir mdir sdir config)
          (fs0, w0) = rest.foldl (processTemplate tdir mdir sdir config)
            (fs0, w0 ++ [tdir ++ [e.2]]) := by
        rw [List.foldl_cons, processTemplate_neg tdir mdir sdir config _ _ hpe]
      obtain ⟨ihd, ihu, ihp, ihm, ihw⟩ := ih fs0 (w0 ++ [tdir ++ [e.2]]) hto' hoo' hnd'
      refine ⟨?_, ?_, ?_, ?_, ?_⟩
      · rw [hstep, ihd]
      · intro p hp
        rw [hstep, ihu p (fun a ha => hp a (List.mem_cons_of_mem e ha))]
      · intro a ha hpa
        rcases List.mem_cons.mp ha with rfl | ha'
        · rw [hpe] at hpa
          exact absurd hpa (by simp)
        · rw [hstep, ihp a ha' hpa]
      · intro a ha hpa
        rcases List.mem_cons.mp ha with rfl | ha'
        · rw [hstep, ihu _ (fun b hb => Ne.symm (hoo b (List.mem_cons_of_mem a hb) a
            (List.mem_cons_self a rest) (fun hba => henr (hba ▸ hb))))]
        · rw [hstep, ihm a ha' hpa]
      · rw [hstep, ihw, List.filter_cons]
        simp [hpe, List.append_assoc]

/-! Distinctness of the paths the script writes, for every mod id. -/

theorem append_singleton_inj {α : Type} {p q : List α} {a b : α}
    (h : p ++ [a] = q ++ [b]) : a = b := by
  have h' := congrArg List.reverse h
  simp only [List.reverse_append, List.reverse_singleton,
    List.singleton_append] at h'
  injection h'

theorem ne_of_last_ne (p q : Path) (a b : Str) (h : a ≠ b) :
    p ++ [a] ≠ q ++ [b] := fun hx => h (append_singleton_inj hx)

theorem append_eq_drop {s t : Str} (x : Str) (h : x ++ s = t) :
    s = t.drop (t.length - s.length) := by
  subst h
  rw [List.length_append, Nat.add_sub_cancel, List.drop_left]

/-- A string with a fixed suffix appended to an arbitrary mod id differs
from a fixed string whenever the suffix disagrees with the fixed string's
tail of the same length. -/
theorem append_ne_of_drop_ne (s t : Str)
    (h : s ≠ t.drop (t.length - s.length)) :
    ∀ x : Str, x ++ s ≠ t := fun x hx => h (append_eq_drop x hx)

theorem append_left_ne (x s t : Str) (h : s ≠ t) : x ++ s ≠ x ++ t :=
  fun hx => h (List.append_cancel_left hx)

theorem outPathFor_submodule_cs (m s : Path) (c : Config) :
    outPathFor m s c "SubModule.cs".data = s ++ ["SubModule.cs".data] := by
  unfold outPathFor
  rw [if_neg (by decide), if_neg (by decide), if_neg (by decide),
    if_neg (by decide)]

theorem outPathFor_modsettings (m s : Path) (c : Config) :
    outPathFor m s c "ModSettings.cs".data =
      s ++ [c.mod_id ++ "Settings.cs".data] := by
  unfold outPathFor
  rw [if_neg (by decide), if_neg (by decide), if_neg (by decide),
    if_pos rfl]

theorem outPathFor_behavior (m s : Path) (c : Config) :
    outPathFor m s c "Behavior.cs".data =
      s ++ [c.mod_id ++ "Behavior.cs".data] := by
  unfold outPathFor
  rw [if_neg (by decide), if_neg (by decide), if_pos rfl]

theorem outPathFor_xml (m s : Path) (c : Config) :
    outPathFor m s c "SubModule.xml".data = m ++ ["SubModule.xml".data] := by
  unfold outPathFor
  rw [if_pos rfl]

theorem outPathFor_csproj (m s : Path) (c : Config) :
    outPathFor m s c "Project.csproj".data =
      s ++ [c.mod_id ++ ".csproj".data] := by
  unfold outPathFor
  rw [if_neg (by decide), if_pos rfl]

/-- No template path coincides with any output path: template file names
end in `.template`, output file names do not, whatever the mod id. -/
theorem TEMPLATES_tpath_ne_opath (tdir mdir sdir : Path) (config : Config) :
    ∀ e ∈ TEMPLATES, ∀ e' ∈ TEMPLATES,
      tdir ++ [e.2] ≠ outPathFor mdir sdir config e'.1 := by
  intro e he e' he'
  simp only [TEMPLATES, List.mem_cons, List.not_mem_nil, or_false] at he he'
  rcases he with rfl | rfl | rfl | rfl | rfl <;>
    rcases he' with rfl | rfl | rfl | rfl | rfl <;>
      simp only [outPathFor_submodule_cs, outPathFor_modsettings,
        outPathFor_behavior, outPathFor_xml, outPathFor_csproj] <;>
      first
        | exact ne_of_last_ne _ _ _ _ (by decide)
        | exact ne_of_last_ne _ _ _ _
            (fun h => append_ne_of_drop_ne _ _ (by decide) config.mod_id h.symm)

/-- Distinct template entries write to distinct output paths, whatever
the mod id. -/
theorem TEMPLATES_opath_inj (mdir sdir : Path) (config : Config) :
    ∀ e ∈ TEMPLATES, ∀ e' ∈ TEMPLATES, e ≠ e' →
      outPathFor mdir sdir config e.1 ≠ outPathFor mdir sdir config e'.1 := by
  intro e he e' he' hne
  simp only [TEMPLATES, List.mem_cons, List.not_mem_nil, or_false] at he he'
  rcases he with rfl | rfl | rfl | rfl | rfl <;>
    rcases he' with rfl | rfl | rfl | rfl | rfl <;>
      simp only [outPathFor_submodule_cs, outPathFor_modsettings,
        outPathFor_behavior, outPathFor_xml, outPathFor_csproj] <;>
      first
        | exact absurd rfl hne
        | exact ne_of_last_ne _ _ _ _ (by decide)
        | exact ne_of_last_ne _ _ _ _
            (append_ne_of_drop_ne _ _ (by decide) config.mod_id)
        | exact ne_of_last_ne _ _ _ _
            (fun h => append_ne_of_drop_ne _ _ (by decide) config.mod_id h.symm)
        | exact ne_of_last_ne _ _ _ _ (append_left_ne _ _ _ (by decide))

theorem TEMPLATES_nodup : TEMPLATES.Nodup := by decide

/-- The `README.md` path differs from every template output path,
whatever the mod id. -/
theorem readme_ne_opath (mdir sdir : Path) (config : Config) :
    ∀ e ∈ TEMPLATES,
      mdir ++ ["README.md".data] ≠ outPathFor mdir sdir config e.1 := by
  intro e he
  simp only [TEMPLATES, List.mem_cons, List.not_mem_nil, or_false] at he
  rcases he with rfl | rfl | rfl | rfl | rfl <;>
    simp only [outPathFor_submodule_cs, outPathFor_modsettings,
      outPathFor_behavior, outPathFor_xml, outPathFor_csproj] <;>
    first
      | exact ne_of_last_ne _ _ _ _ (by decide)
      | exact ne_of_last_ne _ _ _ _
          (fun h => append_ne_of_drop_ne _ _ (by decide) config.mod_id h.symm)

/-- Directories inserted by the run (with their ancestors), a function of
the output directory and the mod id only. -/
def dirsCreated (odir : Path) (config : Config) : List Path :=
  prefixesOf (odir ++ [config.mod_id]) ++
  prefixesOf ((odir ++ [config.mod_id]) ++
    ["bin".data, "Win64_Shipping_Client".data]) ++
  [(odir ++ [config.mod_id]) ++ ["ModuleData".data],
   (odir ++ [config.mod_id]) ++ ["src".data]]

/-- Outcome of the `template_path.exists()` check for one entry: the
template loop runs after directory creation, so the check also passes
when the template path collides with a directory the run just created. -/
def templateSeen (odir tdir : Path) (config : Config) (fs : FS)
    (e : Str × Str) : Bool :=
  decide ((tdir ++ [e.2]) ∈ dirsCreated odir config) ||
    fs.pathExists (tdir ++ [e.2])

/-- State after the four directory-creation calls of
`create_mod_structure`. -/
def mkPhase (odir : Path) (config : Config) (fs : FS) : FS :=
  mkdir (mkdir (mkdirParents (mkdirParents fs (odir ++ [config.mod_id]))
      ((odir ++ [config.mod_id]) ++
        ["bin".data, "Win64_Shipping_Client".data]))
    ((odir ++ [config.mod_id]) ++ ["ModuleData".data]))
    ((odir ++ [config.mod_id]) ++ ["src".data])

theorem mkPhase_files (odir : Path) (config : Config) (fs : FS) :
    (mkPhase odir config fs).files = fs.files := by
  simp [mkPhase, mkdir, insertDir_files, mkdirParents_files]

theorem mem_mkPhase (odir : Path) (config : Config) (fs : FS) (d : Path) :
    d ∈ (mkPhase odir config fs).dirs ↔
      d ∈ dirsCreated odir config ∨ d ∈ fs.dirs := by
  simp only [mkPhase, mkdir, mem_insertDir, mem_mkdirParents, dirsCreated,
    List.mem_append, List.mem_cons, List.not_mem_nil, or_false]
  tauto

theorem mkPhase_pathExists (odir : Path) (config : Config) (fs : FS)
    (p : Path) :
    (mkPhase odir config fs).pathExists p =
      (decide (p ∈ dirsCreated odir config) || fs.pathExists p) := by
  simp only [FS.pathExists, mkPhase_files]
  rw [Bool.eq_iff_iff]
  simp only [Bool.or_eq_true, decide_eq_true_iff, mem_mkPhase]
  tauto

theorem mkPhase_seen (odir tdir : Path) (config : Config) (fs : FS)
    (e : Str × Str) :
    (mkPhase odir config fs).pathExists (tdir ++ [e.2]) =
      templateSeen odir tdir config fs e :=
  mkPhase_pathExists odir config fs _

theorem readText_mkPhase (odir : Path) (config : Config) (fs : FS)
    (p : Path) : (mkPhase odir config fs).readText p = fs.readText p := by
  simp [FS.readText, mkPhase_files]

theorem mkPhase_eq (odir : Path) (config : Config) (fs : FS) :
    mkdir (mkdir (mkdirParents (mkdirParents fs (odir ++ [config.mod_id]))
        ((odir ++ [config.mod_id]) ++
          ["bin".data, "Win64_Shipping_Client".data]))
      ((odir ++ [config.mod_id]) ++ ["ModuleData".data]))
      ((odir ++ [config.mod_id]) ++ ["src".data]) =
      mkPhase odir config fs := rfl

/-- Full characterization of one `create_mod_structure` run: which
directories exist afterwards, the content written for each template whose
existence check passed, the untouched output path of each missing
template, the generated `README.md`, and the warned template paths. -/
theorem create_mod_structure_char (odir tdir : Path) (config : Config)
    (fs : FS) :
    (∀ d : Path, d ∈ (create_mod_structure odir config tdir fs).1.dirs ↔
        d ∈ dirsCreated odir config ∨ d ∈ fs.dirs) ∧
    (∀ e ∈ TEMPLATES, templateSeen odir tdir config fs e = true →
        lookupFile (create_mod_structure odir config tdir fs).1.files
            (outPathFor (odir ++ [config.mod_id])
              ((odir ++ [config.mod_id]) ++ ["src".data]) config e.1) =
          some (replace_placeholders config
            (fs.readText (tdir ++ [e.2])))) ∧
    (∀ e ∈ TEMPLATES, templateSeen odir tdir config fs e = false →
        lookupFile (create_mod_structure odir config tdir fs).1.files
            (outPathFor (odir ++ [config.mod_id])
              ((odir ++ [config.mod_id]) ++ ["src".data]) config e.1) =
          lookupFile fs.files (outPathFor (odir ++ [config.mod_id])
              ((odir ++ [config.mod_id]) ++ ["src".data]) config e.1)) ∧
    lookupFile (create_mod_structure odir config tdir fs).1.files
        ((odir ++ [config.mod_id]) ++ ["README.md".data]) =
      some (readmeContent config) ∧
    (create_mod_structure odir config tdir fs).2 =
      (TEMPLATES.filter
          (fun e => ! templateSeen odir tdir config fs e)).map
        (fun e => tdir ++ [e.2]) := by
  obtain ⟨ihd, ihu, ihp, ihm, ihw⟩ :=
    foldTemplates_char tdir (odir ++ [config.mod_id])
      ((odir ++ [config.mod_id]) ++ ["src".data]) config TEMPLATES
      (mkPhase odir config fs) []
      (TEMPLATES_tpath_ne_opath _ _ _ _) (TEMPLATES_opath_inj _ _ _)
      TEMPLATES_nodup
  have hmk := mkPhase_eq odir config fs
  simp only [create_mod_structure] at ihd ihu ihp ihm ihw hmk ⊢
  simp only [hmk]
  refine ⟨?_, ?_, ?_, ?_, ?_⟩
  · intro d
    rw [writeText_dirs, ihd]
    exact mem_mkPhase odir config fs d
  · intro e he hse
    rw [lookupFile_writeText_ne _ _ _ _
        (readme_ne_opath (odir ++ [config.mod_id]) _ config e he).symm,
      ihp e he (by rw [mkPhase_seen]; exact hse), readText_mkPhase]
  · intro e he hse
    rw [lookupFile_writeText_ne _ _ _ _
        (readme_ne_opath (odir ++ [config.mod_id]) _ config e he).symm,
      ihm e he (by rw [mkPhase_seen]; exact hse), mkPhase_files]
  · exact lookupFile_writeText_self _ _ _
  · rw [ihw, List.nil_append]
    exact congrArg _ (List.filter_congr fun e he => by
      rw [mkPhase_seen])

/-! Idempotence machinery: a second identical run changes nothing. -/

theorem insertDir_id (fs : FS) (p : Path) (h : p ∈ fs.dirs) :
    insertDir fs p = fs := by
  unfold insertDir
  rw [if_pos h]

theorem foldl_insertDir_id (l : List Path) (fs : FS)
    (h : ∀ q ∈ l, q ∈ fs.dirs) : l.foldl insertDir fs = fs := by
  induction l with
  | nil => rfl
  | cons p l ih =>
    rw [List.foldl_cons, insertDir_id fs p (h p (List.mem_cons_self p l))]
    exact ih (fun q hq => h q (List.mem_cons_of_mem p hq))

theorem mkdirParents_id (fs : FS) (p : Path)
    (h : ∀ q ∈ prefixesOf p, q ∈ fs.dirs) : mkdirParents fs p = fs :=
  foldl_insertDir_id _ _ h

theorem mkPhase_id (odir : Path) (config : Config) (fs : FS)
    (h : ∀ q ∈ dirsCreated odir config, q ∈ fs.dirs) :
    mkPhase odir config fs = fs := by
  have h1 : ∀ q ∈ prefixesOf (odir ++ [config.mod_id]), q ∈ fs.dirs :=
    fun q hq => h q (by
      simp only [dirsCreated, List.mem_append]
      exact Or.inl (Or.inl hq))
  have h2 : ∀ q ∈ prefixesOf ((odir ++ [config.mod_id]) ++
      ["bin".data, "Win64_Shipping_Client".data]), q ∈ fs.dirs :=
    fun q hq => h q (by
      simp only [dirsCreated, List.mem_append]
      exact Or.inl (Or.inr hq))
  have h3 : (odir ++ [config.mod_id]) ++ ["ModuleData".data] ∈ fs.dirs :=
    h _ (by simp [dirsCreated])
  have h4 : (odir ++ [config.mod_id]) ++ ["src".data] ∈ fs.dirs :=
    h _ (by simp [dirsCreated])
  unfold mkPhase mkdir
  rw [mkdirParents_id fs _ h1, mkdirParents_id fs _ h2, insertDir_id fs _ h3,
    insertDir_id fs _ h4]

theorem writeText_same (fs : FS) (p : Path) (c : Str)
    (h : lookupFile fs.files p = some c) : fs.writeText p c = fs := by
  unfold FS.writeText
  rw [setFile_same fs.files p c h]

/-- When every template whose existence check passes already has its
substituted content stored at its output path, the template loop leaves
the filesystem unchanged. -/
theorem foldTemplates_id (tdir mdir sdir : Path) (config : Config) :
    ∀ (entries : List (Str × Str)) (fs0 : FS) (w0 : List Path),
    (∀ e ∈ entries, fs0.pathExists (tdir ++ [e.2]) = true →
        lookupFile fs0.files (outPathFor mdir sdir config e.1) =
          some (replace_placeholders config (fs0.readText (tdir ++ [e.2])))) →
    (entries.foldl (processTemplate tdir mdir sdir config) (fs0, w0)).1 = fs0 := by
  intro entries
  induction entries with
  | nil => intro fs0 w0 _; rfl
  | cons e rest ih =>
    intro fs0 w0 hsame
    have hrest : ∀ a ∈ rest, fs0.pathExists (tdir ++ [a.2]) = true →
        lookupFile fs0.files (outPathFor mdir sdir config a.1) =
          some (replace_placeholders config (fs0.readText (tdir ++ [a.2]))) :=
      fun a ha => hsame a (List.mem_cons_of_mem e ha)
    cases hpe : fs0.pathExists (tdir ++ [e.2]) with
    | true =>
      rw [List.foldl_cons, processTemplate_pos _ _ _ _ _ _ hpe,
        writeText_same _ _ _ (hsame e (List.mem_cons_self e rest) hpe)]
      exact ih fs0 w0 hrest
    | false =>
      rw [List.foldl_cons, processTemplate_neg _ _ _ _ _ _ hpe]
      exact ih fs0 _ hrest

/-- Unfolding equation for `create_mod_structure`. -/
theorem create_eq (odir tdir : Path) (config : Config) (fs : FS) :
    create_mod_structure odir config tdir fs =
      ((TEMPLATES.foldl (processTemplate tdir (odir ++ [config.mod_id])
          ((odir ++ [config.mod_id]) ++ ["src".data]) config)
          (mkPhase odir config fs, [])).1.writeText
          ((odir ++ [config.mod_id]) ++ ["README.md".data])
          (readmeContent config),
       (TEMPLATES.foldl (processTemplate tdir (odir ++ [config.mod_id])
          ((odir ++ [config.mod_id]) ++ ["src".data]) config)
          (mkPhase odir config fs, [])).2) := by
  have hmk := mkPhase_eq odir config fs
  simp only [create_mod_structure] at hmk ⊢
  rw [hmk]

/-- No template path coincides with the `README.md` path, whatever the
mod id. -/
theorem tpath_ne_readme (tdir mdir : Path) :
    ∀ e ∈ TEMPLATES, tdir ++ [e.2] ≠ mdir ++ ["README.md".data] := by
  intro e he
  simp only [TEMPLATES, List.mem_cons, List.not_mem_nil, or_false] at he
  rcases he with rfl | rfl | rfl | rfl | rfl <;>
    exact ne_of_last_ne _ _ _ _ (by decide)

/-- Paths that are neither template outputs nor the `README.md` hold the
same file binding after a run as before it. -/
theorem create_mod_structure_untouched (odir tdir : Path) (config : Config)
    (fs : FS) (p : Path)
    (hout : ∀ e ∈ TEMPLATES, p ≠ outPathFor (odir ++ [config.mod_id])
        ((odir ++ [config.mod_id]) ++ ["src".data]) config e.1)
    (hreadme : p ≠ (odir ++ [config.mod_id]) ++ ["README.md".data]) :
    lookupFile (create_mod_structure odir config tdir fs).1.files p =
      lookupFile fs.files p := by
  obtain ⟨ihd, ihu, ihp, ihm, ihw⟩ :=
    foldTemplates_char tdir (odir ++ [config.mod_id])
      ((odir ++ [config.mod_id]) ++ ["src".data]) config TEMPLATES
      (mkPhase odir config fs) []
      (TEMPLATES_tpath_ne_opath _ _ _ _) (TEMPLATES_opath_inj _ _ _)
      TEMPLATES_nodup
  rw [create_eq]
  rw [lookupFile_writeText_ne _ _ _ _ hreadme, ihu p hout, mkPhase_files]

theorem pathExists_iff (fs : FS) (p : Path) :
    fs.pathExists p = true ↔
      (p ∈ fs.dirs ∨ (lookupFile fs.files p).isSome = true) := by
  simp [FS.pathExists]

theorem templateSeen_iff (odir tdir : Path) (config : Config) (fs : FS)
    (e : Str × Str) :
    templateSeen odir tdir config fs e = true ↔
      ((tdir ++ [e.2]) ∈ dirsCreated odir config ∨
        fs.pathExists (tdir ++ [e.2]) = true) := by
  simp [templateSeen]

/-- After a run, a template path passes the existence check exactly when
it passed it during the run. -/
theorem pathExists_after_run (odir tdir : Path) (config : Config) (fs : FS)
    (e : Str × Str) (he : e ∈ TEMPLATES) :
    (create_mod_structure odir config tdir fs).1.pathExists (tdir ++ [e.2]) =
      templateSeen odir tdir config fs e := by
  have hd := (create_mod_structure_char odir tdir config fs).1
  have hu := create_mod_structure_untouched odir tdir config fs
    (tdir ++ [e.2])
    (fun e' he' => TEMPLATES_tpath_ne_opath tdir _ _ config e he e' he')
    (tpath_ne_readme tdir _ e he)
  rw [Bool.eq_iff_iff, pathExists_iff, templateSeen_iff, pathExists_iff,
    hu, hd]
  exact or_assoc

/-- After a run, a template path reads as it did before the run. -/
theorem readText_after_run (odir tdir : Path) (config : Config) (fs : FS)
    (e : Str × Str) (he : e ∈ TEMPLATES) :
    (create_mod_structure odir config tdir fs).1.readText (tdir ++ [e.2]) =
      fs.readText (tdir ++ [e.2]) := by
  have hu := create_mod_structure_untouched odir tdir config fs
    (tdir ++ [e.2])
    (fun e' he' => TEMPLATES_tpath_ne_opath tdir _ _ config e he e' he')
    (tpath_ne_readme tdir _ e he)
  simp [FS.readText, hu]

/-- Running `create_mod_structure` a second time with the same arguments
reproduces the first run's filesystem exactly. -/
theorem create_mod_structure_idem (odir tdir : Path) (config : Config)
    (fs : FS) :
    (create_mod_structure odir config tdir
        (create_mod_structure odir config tdir fs).1).1 =
      (create_mod_structure odir config tdir fs).1 := by
  obtain ⟨hd, hp, hm, hr, hw⟩ := create_mod_structure_char odir tdir config fs
  have hmk2 : mkPhase odir config (create_mod_structure odir config tdir fs).1 =
      (create_mod_structure odir config tdir fs).1 :=
    mkPhase_id _ _ _ (fun q hq => (hd q).mpr (Or.inl hq))
  have hfold : (TEMPLATES.foldl (processTemplate tdir (odir ++ [config.mod_id])
      ((odir ++ [config.mod_id]) ++ ["src".data]) config)
      ((create_mod_structure odir config tdir fs).1, [])).1 =
      (create_mod_structure odir config tdir fs).1 := by
    refine foldTemplates_id tdir _ _ config TEMPLATES _ [] ?_
    intro e he hpe
    rw [pathExists_after_run odir tdir config fs e he] at hpe
    rw [readText_after_run odir tdir config fs e he]
    exact hp e he hpe
  rw [create_eq odir tdir config ((create_mod_structure odir config tdir fs).1)]
  dsimp only
  rw [hmk2, hfold, writeText_same _ _ _ hr]


theorem seen_of_file (odir tdir : Path) (config : Config) (fs : FS)
    (e : Str × Str)
    (h : (lookupFile fs.files (tdir ++ [e.2])).isSome = true) :
    templateSeen odir tdir config fs e = true := by
  simp [templateSeen, FS.pathExists, h]

/-- A run does not change the outcome of any template's existence check:
the directories it creates were also seen by its own check, and it never
writes a file at a template path. -/
theorem templateSeen_after_run (odir tdir : Path) (config : Config)
    (fs : FS) (e : Str × Str) (he : e ∈ TEMPLATES) :
    templateSeen odir tdir config
        ((create_mod_structure odir config tdir fs).1) e =
      templateSeen odir tdir config fs e := by
  unfold templateSeen
  rw [pathExists_after_run odir tdir config fs e he]
  unfold templateSeen
  rw [← Bool.or_assoc, Bool.or_self]

/-! Theorems and witnesses for the frozen claims. -/

/-- Claim C1, counterexample: the claim states a table of six output
file names and five replaced placeholder tokens; the `TEMPLATES` table
has five entries and the replacement table six, so the claim as stated
is false. -/
theorem C1_counterexample :
    ¬ (TEMPLATES.length = 6 ∧
        (replacements ⟨[], [], [], [], [], none⟩).length = 5) := by
  decide

/-- Claim C1, amended: the template table maps exactly five output file
names to template files, and the placeholder-substitution pass replaces
exactly six named placeholder tokens. -/
theorem C1_amended :
    TEMPLATES.length = 5 ∧
      ∀ config : Config, (replacements config).length = 6 :=
  ⟨by decide, fun _ => rfl⟩

/-- Configuration whose mod id value contains another placeholder token,
exhibiting order dependence of the sequential replacement. -/
def cexConfig : Config :=
  { mod_id := "${ModName}".data, mod_name := "X".data,
    namespace_ := "N".data, author := "A".data, version := "V".data,
    description := none }

/-- The replacement table of `cexConfig` with the `ModId` pair moved to
the end: a permutation of the table. -/
def cexPerm : List (Str × Str) :=
  [("${ModName}".data, "X".data),
   ("${ModNamespace}".data, "N".data),
   ("${Author}".data, "A".data),
   ("${Version}".data, "V".data),
   ("${ModDescription}".data, "A Bannerlord mod".data),
   ("${ModId}".data, "${ModName}".data)]

/-- Claim C2, counterexample: with a configuration whose `mod_id` value
is the text `${ModName}` and the content `${ModId}`, applying the
replacements in the order of `cexPerm` (a permutation of the table)
yields a different string than the table order, so order-independence
fails for some configurations. -/
theorem C2_counterexample :
    cexPerm.Perm (replacements cexConfig) ∧
      applyAll cexPerm "${ModId}".data ≠
        applyAll (replacements cexConfig) "${ModId}".data := by
  constructor
  · decide
  · decide

/-- Claim C2, amended: for content that is an alternation of literal
segments without `$` and placeholder tokens of the table, and for every
configuration whose replacement values contain no `$`, applying the six
replacements in any permutation of the replacement list yields the same
output string as the program's order. -/
theorem C2_amended (config : Config) (rs : List (Str × Str))
    (t : List Chunk) (hperm : rs.Perm (replacements config))
    (hvals : ∀ pv ∈ replacements config, '$' ∉ pv.2)
    (ht : ∀ c ∈ t, ChunkWF c) :
    applyAll rs (flatten t) = replace_placeholders config (flatten t) :=
  applyAll_perm_eq config rs t hperm hvals ht

/-- Configuration used by the witnesses. -/
def wConfig : Config :=
  { mod_id := "MyMod".data, mod_name := "My Mod".data,
    namespace_ := "MyModNs".data, author := "Ann".data,
    version := "1.2.3".data, description := none }

/-- Reversed replacement table of `wConfig`, a permutation of it. -/
def wPerm : List (Str × Str) := (replacements wConfig).reverse

/-- Well-formed template content used by the witnesses, containing every
placeholder token. -/
def wTemplate : List Chunk :=
  [Chunk.lit "id=".data, Chunk.hole "${ModId}".data,
   Chunk.lit " name=".data, Chunk.hole "${ModName}".data,
   Chunk.lit " ns=".data, Chunk.hole "${ModNamespace}".data,
   Chunk.lit " by ".data, Chunk.hole "${Author}".data,
   Chunk.lit " v".data, Chunk.hole "${Version}".data,
   Chunk.lit " about: ".data, Chunk.hole "${ModDescription}".data]

/-- Witness for C2: concrete permutation, configuration and template
satisfying the hypotheses, with the conclusion obtained from the
theorem. -/
theorem C2_witness :
    wPerm.Perm (replacements wConfig) ∧
    (∀ pv ∈ replacements wConfig, '$' ∉ pv.2) ∧
    (∀ c ∈ wTemplate, ChunkWF c) ∧
    applyAll wPerm (flatten wTemplate) =
      replace_placeholders wConfig (flatten wTemplate) :=
  ⟨by decide, by decide, by decide,
    C2_amended wConfig wPerm wTemplate (by decide) (by decide) (by decide)⟩

/-- Claim C3: on well-formed template content, and for replacement
values without `$`, `replace_placeholders` substitutes each placeholder
token by its configured value simultaneously: `${ModId}` by the mod id,
`${ModName}` by the mod name, `${ModNamespace}` by the namespace,
`${Author}` by the author, `${Version}` by the version and
`${ModDescription}` by the configured description or `"A Bannerlord
mod"` when none is configured (see `placeholderValue`). -/
theorem C3_substitution (config : Config) (t : List Chunk)
    (hvals : ∀ pv ∈ replacements config, '$' ∉ pv.2)
    (ht : ∀ c ∈ t, ChunkWF c) :
    replace_placeholders config (flatten t) = flatten (specSubst config t) :=
  replace_placeholders_flatten config t hvals ht

/-- Witness for C3: the hypotheses hold for `wConfig` (which has no
description) and `wTemplate`, and the conclusion follows from the
theorem; the description hole receives the default text. -/
theorem C3_witness :
    (∀ pv ∈ replacements wConfig, '$' ∉ pv.2) ∧
    (∀ c ∈ wTemplate, ChunkWF c) ∧
    wConfig.description = none ∧
    replace_placeholders wConfig (flatten wTemplate) =
      flatten (specSubst wConfig wTemplate) :=
  ⟨by decide, by decide, rfl,
    C3_substitution wConfig wTemplate (by decide) (by decide)⟩


/-- Claim C4: for every configuration whose five templates all exist as
files, `create_mod_structure` produces a root directory named after the
mod id containing `bin/Win64_Shipping_Client/`, `ModuleData/` and
`src/`, a `SubModule.xml` and a `README.md` at the root, and source and
project files `src/<mod_id>.csproj`, `src/<mod_id>Behavior.cs`,
`src/<mod_id>Settings.cs` and `src/SubModule.cs`. -/
theorem C4_layout (odir tdir : Path) (config : Config) (fs : FS)
    (htmpl : ∀ e ∈ TEMPLATES,
      (lookupFile fs.files (tdir ++ [e.2])).isSome = true) :
    ((odir ++ [config.mod_id]) ∈
        (create_mod_structure odir config tdir fs).1.dirs) ∧
    (((odir ++ [config.mod_id]) ++
        ["bin".data, "Win64_Shipping_Client".data]) ∈
        (create_mod_structure odir config tdir fs).1.dirs) ∧
    (((odir ++ [config.mod_id]) ++ ["ModuleData".data]) ∈
        (create_mod_structure odir config tdir fs).1.dirs) ∧
    (((odir ++ [config.mod_id]) ++ ["src".data]) ∈
        (create_mod_structure odir config tdir fs).1.dirs) ∧
    (lookupFile (create_mod_structure odir config tdir fs).1.files
        ((odir ++ [config.mod_id]) ++ ["SubModule.xml".data])).isSome = true ∧
    (lookupFile (create_mod_structure odir config tdir fs).1.files
        ((odir ++ [config.mod_id]) ++ ["README.md".data])).isSome = true ∧
    (lookupFile (create_mod_structure odir config tdir fs).1.files
        (((odir ++ [config.mod_id]) ++ ["src".data]) ++
          [config.mod_id ++ ".csproj".data])).isSome = true ∧
    (lookupFile (create_mod_structure odir config tdir fs).1.files
        (((odir ++ [config.mod_id]) ++ ["src".data]) ++
          [config.mod_id ++ "Behavior.cs".data])).isSome = true ∧
    (lookupFile (create_mod_structure odir config tdir fs).1.files
        (((odir ++ [config.mod_id]) ++ ["src".data]) ++
          [config.mod_id ++ "Settings.cs".data])).isSome = true ∧
    (lookupFile (create_mod_structure odir config tdir fs).1.files
        (((odir ++ [config.mod_id]) ++ ["src".data]) ++
          ["SubModule.cs".data])).isSome = true := by
  obtain ⟨hd, hp, hm, hr, hw⟩ := create_mod_structure_char odir tdir config fs
  have hs : ∀ e ∈ TEMPLATES, templateSeen odir tdir config fs e = true :=
    fun e he => seen_of_file odir tdir config fs e (htmpl e he)
  have hxml : lookupFile (create_mod_structure odir config tdir fs).1.files
      ((odir ++ [config.mod_id]) ++ ["SubModule.xml".data]) =
      some (replace_placeholders config
        (fs.readText (tdir ++ ["SubModule.xml.template".data]))) :=
    hp ("SubModule.xml".data, "SubModule.xml.template".data) (by decide)
      (hs _ (by decide))
  have hpro : lookupFile (create_mod_structure odir config tdir fs).1.files
      (((odir ++ [config.mod_id]) ++ ["src".data]) ++
        [config.mod_id ++ ".csproj".data]) =
      some (replace_placeholders config
        (fs.readText (tdir ++ ["ModProject.csproj.template".data]))) :=
    hp ("Project.csproj".data, "ModProject.csproj.template".data) (by decide)
      (hs _ (by decide))
  have hbeh : lookupFile (create_mod_structure odir config tdir fs).1.files
      (((odir ++ [config.mod_id]) ++ ["src".data]) ++
        [config.mod_id ++ "Behavior.cs".data]) =
      some (replace_placeholders config
        (fs.readText (tdir ++ ["CampaignBehavior.cs.template".data]))) :=
    hp ("Behavior.cs".data, "CampaignBehavior.cs.template".data) (by decide)
      (hs _ (by decide))
  have hset : lookupFile (create_mod_structure odir config tdir fs).1.files
      (((odir ++ [config.mod_id]) ++ ["src".data]) ++
        [config.mod_id ++ "Settings.cs".data]) =
      some (replace_placeholders config
        (fs.readText (tdir ++ ["ModSettings.cs.template".data]))) :=
    hp ("ModSettings.cs".data, "ModSettings.cs.template".data) (by decide)
      (hs _ (by decide))
  have hsub : lookupFile (create_mod_structure odir config tdir fs).1.files
      (((odir ++ [config.mod_id]) ++ ["src".data]) ++
        ["SubModule.cs".data]) =
      some (replace_placeholders config
        (fs.readText (tdir ++ ["SubModule.cs.template".data]))) :=
    hp ("SubModule.cs".data, "SubModule.cs.template".data) (by decide)
      (hs _ (by decide))
  refine ⟨?_, ?_, ?_, ?_, ?_, ?_, ?_, ?_, ?_, ?_⟩
  · refine (hd _).mpr (Or.inl ?_)
    simp only [dirsCreated, List.mem_append]
    exact Or.inl (Or.inl (self_mem_prefixesOf _ (by simp)))
  · refine (hd _).mpr (Or.inl ?_)
    simp only [dirsCreated, List.mem_append]
    exact Or.inl (Or.inr (self_mem_prefixesOf _ (by simp)))
  · exact (hd _).mpr (Or.inl (by simp [dirsCreated]))
  · exact (hd _).mpr (Or.inl (by simp [dirsCreated]))
  · rw [hxml]; rfl
  · rw [hr]; rfl
  · rw [hpro]; rfl
  · rw [hbeh]; rfl
  · rw [hset]; rfl
  · rw [hsub]; rfl


/-- Claim C5: when the existence check fails for one template while it
passes for the four others, the run warns about the missing template's
path, leaves its output path unchanged, still produces every other
output and the `README.md`, and completes (the result is total, not an
abort). -/
theorem C5_missing_template (odir tdir : Path) (config : Config) (fs : FS)
    (e : Str × Str) (he : e ∈ TEMPLATES)
    (hmiss : templateSeen odir tdir config fs e = false)
    (hothers : ∀ e' ∈ TEMPLATES, e' ≠ e →
      templateSeen odir tdir config fs e' = true) :
    (tdir ++ [e.2]) ∈ (create_mod_structure odir config tdir fs).2 ∧
    lookupFile (create_mod_structure odir config tdir fs).1.files
        (outPathFor (odir ++ [config.mod_id])
          ((odir ++ [config.mod_id]) ++ ["src".data]) config e.1) =
      lookupFile fs.files (outPathFor (odir ++ [config.mod_id])
          ((odir ++ [config.mod_id]) ++ ["src".data]) config e.1) ∧
    (∀ e' ∈ TEMPLATES, e' ≠ e →
        (lookupFile (create_mod_structure odir config tdir fs).1.files
          (outPathFor (odir ++ [config.mod_id])
            ((odir ++ [config.mod_id]) ++ ["src".data])
            config e'.1)).isSome = true) ∧
    lookupFile (create_mod_structure odir config tdir fs).1.files
        ((odir ++ [config.mod_id]) ++ ["README.md".data]) =
      some (readmeContent config) := by
  obtain ⟨hd, hp, hm, hr, hw⟩ := create_mod_structure_char odir tdir config fs
  refine ⟨?_, hm e he hmiss, ?_, hr⟩
  · rw [hw]
    exact List.mem_map.mpr
      ⟨e, List.mem_filter.mpr ⟨he, by simp [hmiss]⟩, rfl⟩
  · intro e' he' hne
    rw [hp e' he' (hothers e' he' hne)]
    rfl

/-- Claim C6: when the templates directory does not exist, `main` exits
with status 1, reports no created outputs, and leaves the filesystem
exactly as it was. -/
theorem C6_fatal_missing_templates_dir (script_dir : Path) (args : Args)
    (fs : FS)
    (h : fs.pathExists (templatesDirOf script_dir args) = false) :
    (main script_dir args fs).exitCode = 1 ∧
    (main script_dir args fs).fs = fs ∧
    (main script_dir args fs).warnings = [] := by
  refine ⟨?_, ?_, ?_⟩ <;> simp [main, h]

/-- Claim C7: running `create_mod_structure` a second time with the same
output directory, configuration, templates directory and template
contents reproduces the first run exactly: every output file is
overwritten with identical content, the directory tree is unchanged, and
the same warnings are produced; no merging of old and new content
occurs. -/
theorem C7_idempotent (odir tdir : Path) (config : Config) (fs : FS) :
    create_mod_structure odir config tdir
        ((create_mod_structure odir config tdir fs).1) =
      create_mod_structure odir config tdir fs := by
  have h1 := create_mod_structure_idem odir tdir config fs
  have hw1 := (create_mod_structure_char odir tdir config fs).2.2.2.2
  have hw2 := (create_mod_structure_char odir tdir config
    ((create_mod_structure odir config tdir fs).1)).2.2.2.2
  have h2 : (create_mod_structure odir config tdir
      ((create_mod_structure odir config tdir fs).1)).2 =
      (create_mod_structure odir config tdir fs).2 := by
    rw [hw2, hw1]
    exact congrArg _ (List.filter_congr fun e he => by
      rw [templateSeen_after_run odir tdir config fs e he])
  calc create_mod_structure odir config tdir
        ((create_mod_structure odir config tdir fs).1)
      = ((create_mod_structure odir config tdir
            ((create_mod_structure odir config tdir fs).1)).1,
         (create_mod_structure odir config tdir
            ((create_mod_structure odir config tdir fs).1)).2) :=
        Prod.mk.eta.symm
    _ = ((create_mod_structure odir config tdir fs).1,
         (create_mod_structure odir config tdir fs).2) := by rw [h1, h2]
    _ = create_mod_structure odir config tdir fs := Prod.mk.eta

/-- Claim C8: an invocation that supplies only the mod id builds a
configuration whose display name and namespace equal the mod id, whose
author is `"Anonymous"` and whose version is `"1.0.0"` (and no
description). -/
theorem C8_default_config (mod_id : Str) :
    buildConfig (argsOnlyModId mod_id) =
      { mod_id := mod_id, mod_name := mod_id, namespace_ := mod_id,
        author := "Anonymous".data, version := "1.0.0".data,
        description := none } := rfl

/-- Claim C9: `main` never sets a description: every configuration it
builds has no description entry, the value substituted for
`${ModDescription}` is therefore the default `"A Bannerlord mod"`, and
on well-formed template content the substitution pass replaces every
placeholder occurrence according to that table. -/
theorem C9_description_never_set (args : Args) :
    (buildConfig args).description = none ∧
    placeholderValue (buildConfig args) "${ModDescription}".data =
      "A Bannerlord mod".data ∧
    ∀ (t : List Chunk),
      (∀ pv ∈ replacements (buildConfig args), '$' ∉ pv.2) →
      (∀ c ∈ t, ChunkWF c) →
      replace_placeholders (buildConfig args) (flatten t) =
        flatten (specSubst (buildConfig args) t) := by
  refine ⟨rfl, ?_, fun t hvals ht =>
    replace_placeholders_flatten _ t hvals ht⟩
  unfold placeholderValue
  rw [if_neg (by decide), if_neg (by decide), if_neg (by decide),
    if_neg (by decide), if_neg (by decide)]
  rfl

/-- Claim C10: even when every template's existence check fails, the run
creates the full directory tree, writes the `README.md` generated from
the configuration alone, and warns about all five template paths. -/
theorem C10_templates_all_missing (odir tdir : Path) (config : Config)
    (fs : FS)
    (hmiss : ∀ e ∈ TEMPLATES, templateSeen odir tdir config fs e = false) :
    ((odir ++ [config.mod_id]) ∈
        (create_mod_structure odir config tdir fs).1.dirs) ∧
    (((odir ++ [config.mod_id]) ++
        ["bin".data, "Win64_Shipping_Client".data]) ∈
        (create_mod_structure odir config tdir fs).1.dirs) ∧
    (((odir ++ [config.mod_id]) ++ ["ModuleData".data]) ∈
        (create_mod_structure odir config tdir fs).1.dirs) ∧
    (((odir ++ [config.mod_id]) ++ ["src".data]) ∈
        (create_mod_structure odir config tdir fs).1.dirs) ∧
    lookupFile (create_mod_structure odir config tdir fs).1.files
        ((odir ++ [config.mod_id]) ++ ["README.md".data]) =
      some (readmeContent config) ∧
    (create_mod_structure odir config tdir fs).2 =
      TEMPLATES.map (fun e => tdir ++ [e.2]) := by
  obtain ⟨hd, hp, hm, hr, hw⟩ := create_mod_structure_char odir tdir config fs
  refine ⟨?_, ?_, ?_, ?_, hr, ?_⟩
  · refine (hd _).mpr (Or.inl ?_)
    simp only [dirsCreated, List.mem_append]
    exact Or.inl (Or.inl (self_mem_prefixesOf _ (by simp)))
  · refine (hd _).mpr (Or.inl ?_)
    simp only [dirsCreated, List.mem_append]
    exact Or.inl (Or.inr (self_mem_prefixesOf _ (by simp)))
  · exact (hd _).mpr (Or.inl (by simp [dirsCreated]))
  · exact (hd _).mpr (Or.inl (by simp [dirsCreated]))
  · rw [hw]
    exact congrArg _ (List.filter_eq_self.mpr fun a ha => by
      simp [hmiss a ha])


/-- Filesystem fixture with all five templates present under `T/`. -/
def wFS : FS :=
  { dirs := [["T".data]],
    files :=
      [(["T".data, "SubModule.cs.template".data], "sub ${ModId};".data),
       (["T".data, "ModSettings.cs.template".data], "set ${ModName};".data),
       (["T".data, "CampaignBehavior.cs.template".data],
         "beh ${Author};".data),
       (["T".data, "SubModule.xml.template".data], "xml ${Version};".data),
       (["T".data, "ModProject.csproj.template".data],
         "pro ${ModNamespace};".data)] }

/-- Witness for C4: with all templates present, a concrete run produces
the whole layout. -/
theorem C4_witness :
    (∀ e ∈ TEMPLATES,
      (lookupFile wFS.files (["T".data] ++ [e.2])).isSome = true) ∧
    ((([] ++ [wConfig.mod_id]) ∈
        (create_mod_structure [] wConfig ["T".data] wFS).1.dirs) ∧
    ((([] ++ [wConfig.mod_id]) ++
        ["bin".data, "Win64_Shipping_Client".data]) ∈
        (create_mod_structure [] wConfig ["T".data] wFS).1.dirs) ∧
    ((([] ++ [wConfig.mod_id]) ++ ["ModuleData".data]) ∈
        (create_mod_structure [] wConfig ["T".data] wFS).1.dirs) ∧
    ((([] ++ [wConfig.mod_id]) ++ ["src".data]) ∈
        (create_mod_structure [] wConfig ["T".data] wFS).1.dirs) ∧
    (lookupFile (create_mod_structure [] wConfig ["T".data] wFS).1.files
        (([] ++ [wConfig.mod_id]) ++ ["SubModule.xml".data])).isSome = true ∧
    (lookupFile (create_mod_structure [] wConfig ["T".data] wFS).1.files
        (([] ++ [wConfig.mod_id]) ++ ["README.md".data])).isSome = true ∧
    (lookupFile (create_mod_structure [] wConfig ["T".data] wFS).1.files
        ((([] ++ [wConfig.mod_id]) ++ ["src".data]) ++
          [wConfig.mod_id ++ ".csproj".data])).isSome = true ∧
    (lookupFile (create_mod_structure [] wConfig ["T".data] wFS).1.files
        ((([] ++ [wConfig.mod_id]) ++ ["src".data]) ++
          [wConfig.mod_id ++ "Behavior.cs".data])).isSome = true ∧
    (lookupFile (create_mod_structure [] wConfig ["T".data] wFS).1.files
        ((([] ++ [wConfig.mod_id]) ++ ["src".data]) ++
          [wConfig.mod_id ++ "Settings.cs".data])).isSome = true ∧
    (lookupFile (create_mod_structure [] wConfig ["T".data] wFS).1.files
        ((([] ++ [wConfig.mod_id]) ++ ["src".data]) ++
          ["SubModule.cs".data])).isSome = true) :=
  ⟨by decide, C4_layout [] ["T".data] wConfig wFS (by decide)⟩

/-- The template entry missing in the C5 fixture. -/
def wMissing : Str × Str :=
  ("SubModule.xml".data, "SubModule.xml.template".data)

/-- Filesystem fixture with four templates present and
`SubModule.xml.template` absent. -/
def wFS5 : FS :=
  { dirs := [["T".data]],
    files :=
      [(["T".data, "SubModule.cs.template".data], "sub ${ModId};".data),
       (["T".data, "ModSettings.cs.template".data], "set ${ModName};".data),
       (["T".data, "CampaignBehavior.cs.template".data],
         "beh ${Author};".data),
       (["T".data, "ModProject.csproj.template".data],
         "pro ${ModNamespace};".data)] }

/-- Witness for C5: a concrete run with one missing template warns about
it, skips its output and still produces the rest. -/
theorem C5_witness :
    wMissing ∈ TEMPLATES ∧
    templateSeen [] ["T".data] wConfig wFS5 wMissing = false ∧
    (∀ e' ∈ TEMPLATES, e' ≠ wMissing →
      templateSeen [] ["T".data] wConfig wFS5 e' = true) ∧
    ((["T".data] ++ [wMissing.2]) ∈
        (create_mod_structure [] wConfig ["T".data] wFS5).2 ∧
    lookupFile (create_mod_structure [] wConfig ["T".data] wFS5).1.files
        (outPathFor ([] ++ [wConfig.mod_id])
          (([] ++ [wConfig.mod_id]) ++ ["src".data]) wConfig wMissing.1) =
      lookupFile wFS5.files (outPathFor ([] ++ [wConfig.mod_id])
          (([] ++ [wConfig.mod_id]) ++ ["src".data]) wConfig wMissing.1) ∧
    (∀ e' ∈ TEMPLATES, e' ≠ wMissing →
        (lookupFile
          (create_mod_structure [] wConfig ["T".data] wFS5).1.files
          (outPathFor ([] ++ [wConfig.mod_id])
            (([] ++ [wConfig.mod_id]) ++ ["src".data])
            wConfig e'.1)).isSome = true) ∧
    lookupFile (create_mod_structure [] wConfig ["T".data] wFS5).1.files
        (([] ++ [wConfig.mod_id]) ++ ["README.md".data]) =
      some (readmeContent wConfig)) :=
  ⟨by decide, by decide, by decide,
    C5_missing_template [] ["T".data] wConfig wFS5 wMissing (by decide)
      (by decide) (by decide)⟩

/-- Argument fixture: only a mod id and explicit author and version, no
templates path. -/
def wArgs : Args :=
  { mod_id := "WMod".data, name := none, namespace_ := none,
    author := "Bea".data, version := "2.0".data, output := [],
    templates := none }

/-- Witness for C6: on an empty filesystem the default templates
directory does not exist, and `main` exits with status 1 leaving the
filesystem untouched. -/
theorem C6_witness :
    (FS.mk [] []).pathExists (templatesDirOf [] wArgs) = false ∧
    ((main [] wArgs (FS.mk [] [])).exitCode = 1 ∧
     (main [] wArgs (FS.mk [] [])).fs = FS.mk [] [] ∧
     (main [] wArgs (FS.mk [] [])).warnings = []) :=
  ⟨by decide, C6_fatal_missing_templates_dir [] wArgs (FS.mk [] [])
    (by decide)⟩

/-- Witness for C9: at a concrete invocation, the configuration has no
description and a well-formed template containing `${ModDescription}` is
rendered with the default text. -/
theorem C9_witness :
    (buildConfig wArgs).description = none ∧
    placeholderValue (buildConfig wArgs) "${ModDescription}".data =
      "A Bannerlord mod".data ∧
    (∀ pv ∈ replacements (buildConfig wArgs), '$' ∉ pv.2) ∧
    (∀ c ∈ wTemplate, ChunkWF c) ∧
    replace_placeholders (buildConfig wArgs) (flatten wTemplate) =
      flatten (specSubst (buildConfig wArgs) wTemplate) :=
  ⟨(C9_description_never_set wArgs).1,
   (C9_description_never_set wArgs).2.1,
   by decide, by decide,
   (C9_description_never_set wArgs).2.2 wTemplate (by decide) (by decide)⟩

/-- Witness for C10: on an empty filesystem every template is missing,
and a concrete run still creates the directory tree and the README and
warns about all five templates. -/
theorem C10_witness :
    (∀ e ∈ TEMPLATES,
      templateSeen [] ["T".data] wConfig (FS.mk [] []) e = false) ∧
    ((([] ++ [wConfig.mod_id]) ∈
        (create_mod_structure [] wConfig ["T".data] (FS.mk [] [])).1.dirs) ∧
    ((([] ++ [wConfig.mod_id]) ++
        ["bin".data, "Win64_Shipping_Client".data]) ∈
        (create_mod_structure [] wConfig ["T".data] (FS.mk [] [])).1.dirs) ∧
    ((([] ++ [wConfig.mod_id]) ++ ["ModuleData".data]) ∈
        (create_mod_structure [] wConfig ["T".data] (FS.mk [] [])).1.dirs) ∧
    ((([] ++ [wConfig.mod_id]) ++ ["src".data]) ∈
        (create_mod_structure [] wConfig ["T".data] (FS.mk [] [])).1.dirs) ∧
    lookupFile
        (create_mod_structure [] wConfig ["T".data] (FS.mk [] [])).1.files
        (([] ++ [wConfig.mod_id]) ++ ["README.md".data]) =
      some (readmeContent wConfig) ∧
    (create_mod_structure [] wConfig ["T".data] (FS.mk [] [])).2 =
      TEMPLATES.map (fun e => ["T".data] ++ [e.2])) :=
  ⟨by decide,
    C10_templates_all_missing [] ["T".data] wConfig (FS.mk [] [])
      (by decide)⟩


end GenMod
